import Mathlib

/-!
Verification development for the DocMLx-api presentation-summarization
pipeline.  The Python sources are shallowly embedded as executable Lean
definitions:

* `Document`, `PipelineHistory`  — `app/schema/results/document.py`
* `gen_summary`                  — `app/pipeline/presentation_summarization.py`
  (the Celery task, modelled as a pure state-passing function over a `World`
  that supplies the file system, the per-path document store and the results
  of the external language-model backends; each backend result is an
  `Except String _`, an `.error` value standing for a raised Python
  exception);
* `execute_hooks`                — `app/hooks/registry.py`
* `extract_target_from_first_page`, `extract_target_from_summary`
                                 — `app/service/lm/ppt/extractors/target_extractor.py`
* batching of `generate_short_summary`
                                 — `app/service/lm/ppt/summarizers/short_summary.py`
* `extract_date` and its candidate regex / `preprocess_text`
                                 — `app/service/nlp/ppt/date_extractor.py`
-/

namespace DocMLx

/-- A calendar date, standing for the Python `datetime` values produced by
`dateparser.parse` (only the date part is ever used by the pipeline:
history details use `strftime("%Y-%m-%d")`). -/
structure Date where
  year : Nat
  month : Nat
  day : Nat
deriving DecidableEq, Repr

/-- Left-pad the decimal representation of `n` with zeros to width `w`
(`strftime` zero padding). -/
def padNum (w n : Nat) : String :=
  let s := toString n
  let l := s.length
  if l < w then String.mk (List.replicate (w - l) '0') ++ s else s

/-- `date.strftime("%Y-%m-%d")`. -/
def fmtDate (d : Date) : String :=
  padNum 4 d.year ++ "-" ++ padNum 2 d.month ++ "-" ++ padNum 2 d.day

/-- One entry of the per-document processing history
(`PipelineHistory` in `app/schema/results/document.py`).  The timestamp is
`datetime.now(pytz.utc)` at append time, modelled as an abstract tick. -/
structure PipelineHistory where
  run_id : Nat
  step : String
  timestamp : Nat
  status : String
  details : Option String
deriving DecidableEq, Repr

/-- The `Document` aggregate (`app/schema/results/document.py`).  Fields the
pipeline never reads or writes (`link`, `ext_id`, audit timestamps, user
fields, `author`, `executive_summary`, `stage`) are omitted; they are carried
around unchanged by the Python code and play no role in any claim.  The UUID
`id` is modelled as a `Nat`. -/
structure Document where
  id : Nat
  run_id : Option Nat := some 0
  file_path : String
  file_type : Option String := none
  ext_path : Option String := none
  doc_hash : Option String := none
  date_published : Option Date := none
  authors : Option (List String) := none
  per_slide_summary : Option (List String) := none
  short_summary : Option String := none
  title : Option String := none
  target : Option String := none
  tags : List String := []
  history : List PipelineHistory := []
deriving DecidableEq, Repr

/-- `Document.add_history`: appends a new `PipelineHistory` entry; the only
mutator of `history`. -/
def Document.add_history (d : Document) (run_id : Nat) (step : String)
    (status : String) (details : Option String := none) (now : Nat := 0) :
    Document :=
  { d with history := d.history ++
      [{ run_id := run_id, step := step, timestamp := now,
         status := status, details := details }] }

/-- The part of `load_pdf_document`'s result that `gen_summary` reads:
`first_page_content` and `loaded_docs` (per-page contents). -/
structure PdfDoc where
  first_page_content : String
  loaded_docs : List String
deriving DecidableEq, Repr

/-- Is `pre` a prefix of `l` (character lists)? -/
def listStartsWith : List Char → List Char → Bool
  | [], _ => true
  | _ :: _, [] => false
  | p :: ps, c :: cs => p = c && listStartsWith ps cs

/-- Python `str.strip()` (no arguments): remove leading and trailing
whitespace. -/
def pyStrip (s : String) : String :=
  String.mk (((s.data.dropWhile Char.isWhitespace).reverse.dropWhile
    Char.isWhitespace).reverse)

/-- Python `str.lower()` (ASCII range). -/
def pyLower (s : String) : String := String.mk (s.data.map Char.toLower)

/-- Python `needle in hay` for strings: substring containment. -/
def strContains (hay needle : String) : Bool :=
  go hay.data
where
  go : List Char → Bool
    | [] => listStartsWith needle.data []
    | l@(_ :: rest) => listStartsWith needle.data l || go rest

/-- `os.path.basename`: the part of the path after the last `/`. -/
def basename (s : String) : String :=
  String.mk (go s.data [])
where
  go : List Char → List Char → List Char
    | [], acc => acc.reverse
    | '/' :: rest, _ => go rest []
    | c :: rest, acc => go rest (c :: acc)

/-- `", ".join(authors)`. -/
def joinComma (l : List String) : String := String.intercalate ", " l

/-- The environment of one `gen_summary` run: the file system, the document
store entry for the submitted path, the `HOOKS_POST` environment variable and
the external backends.  Each backend is a function of the arguments the
orchestrator passes it, returning `.ok v` for a normal return and `.error m`
for a raised exception with message `m` (the orchestrator's `except` blocks
only use `str(e)`). -/
structure World where
  /-- `os.path.isfile(file_location)` -/
  fileIsFile : Bool
  /-- `get_file_type(file_location)` (returns `None` on detection failure) -/
  fileType : Option String
  /-- `calculate_file_hash(file_location)`: SHA-256 of the current file bytes -/
  fileHash : String
  /-- `load_pdf_document(file_location)` (`none` models a falsy result) -/
  pdfDoc : Option PdfDoc
  /-- `get_document_by_file_path_sync(file_location)` -/
  store : Option Document
  /-- `os.getenv("HOOKS_POST")` -/
  hooksEnv : Option String
  /-- `datetime.now(pytz.utc)` tick used for history timestamps -/
  now : Nat
  /-- `uuid.uuid4()` -/
  newId : Nat
  /-- does `save_document_sync` raise? (the orchestrator swallows the error) -/
  saveFails : Bool
  /-- `extract_author_from_first_page(first_page_content, file_name)` -/
  authorB : String → String → Except String (List String)
  /-- `extract_topic_from_first_page(first_page_content)` -/
  topicB : String → Except String String
  /-- `create_summary_list(loaded_docs)` -/
  slidesB : List String → Except String (List String)
  /-- `generate_short_summary(per_slide_summary)` -/
  shortB : List String → Except String String
  /-- `contains_bullet_points(short_summary)` -/
  bulletsB : String → Except String Bool
  /-- `count_words_nltk(short_summary)` -/
  wcB : String → Except String Nat
  /-- `filter_bullets_summary(short_summary)` -/
  filterB : String → Except String String
  /-- `shorten_summary(short_summary)` -/
  shortenB : String → Except String String
  /-- `extract_target_from_first_page(first_page_content, file_name)` -/
  target1B : String → String → Except String String
  /-- `extract_target_from_summary(summary, topic)` -/
  target2B : String → Option String → Except String String
  /-- `extract_date(file_name, first_page_content)`; `.ok none` models a
  return value that is not a `datetime` instance -/
  dateB : String → String → Except String (Option Date)

/-- The feature switches hard-coded at the top of `gen_summary`. -/
def RUN_AUTHOR_EXTRACTION : Bool := true

/-- `RUN_TOPIC_EXTRACTION = True` in `gen_summary`. -/
def RUN_TOPIC_EXTRACTION : Bool := true

/-- `RUN_SLIDE_EXTRACTION = True` in `gen_summary`. -/
def RUN_SLIDE_EXTRACTION : Bool := true

/-- `RUN_SHORT_SUMMARY = True` in `gen_summary`. -/
def RUN_SHORT_SUMMARY : Bool := true

/-- `RUN_TARGET_EXTRACTION = True` in `gen_summary`. -/
def RUN_TARGET_EXTRACTION : Bool := true

/-- `RUN_DATE_EXTRACTION = True` in `gen_summary`. -/
def RUN_DATE_EXTRACTION : Bool := true

/-- `RUN_POST_HOOKS = False` in `gen_summary` (the full-run post-hook block
is switched off in the source). -/
def RUN_POST_HOOKS : Bool := false

/-- `SHORT_SUMMARY_THRESHOLD = 160` in `gen_summary`. -/
def SHORT_SUMMARY_THRESHOLD : Nat := 160

/-- Mutable state threaded through the stage sequence of `gen_summary`:
the working `Document` aggregate, the run id, the data extracted during
pre-processing, and (for observability) the names of the backends invoked
so far, in call order. -/
structure PState where
  doc : Document
  rid : Nat
  firstPage : String
  loadedDocs : List String
  fileName : String
  invoked : List String
deriving Repr

/-- An early exit of the run (a `return` inside a stage, or an uncaught
exception).  `ret = .ok none` models `return None`; `ret = .error m` models
an exception escaping `gen_summary`.  `doc` is the in-memory aggregate at the
moment of exit — it is discarded by the Python code (observable here for the
stated theorems, never persisted). -/
structure Halted where
  ret : Except String (Option Document)
  doc : Document
  invoked : List String
deriving Repr

/-- Everything observable about one `gen_summary` call: the returned value,
the store entry for the path after the run, the backends invoked, the
documents passed to `execute_hooks`, and the final in-memory aggregate. -/
structure RunResult where
  ret : Except String (Option Document)
  store' : Option Document
  invoked : List String
  hookRuns : List Document
  finalDoc : Document
deriving Repr

/-- Author-extraction stage of `gen_summary` (lines 134–151). -/
def stageAuthor (w : World) (ps : PState) : Except Halted PState :=
  if RUN_AUTHOR_EXTRACTION then
    match w.authorB ps.firstPage ps.fileName with
    | .ok authors =>
      let d := { ps.doc with authors := some authors }
      let d := d.add_history ps.rid "Author Extraction" "Success"
        (some (joinComma authors)) w.now
      .ok { ps with doc := d, invoked := ps.invoked ++ ["author"] }
    | .error e =>
      let d := ps.doc.add_history ps.rid "Author Extraction" "Failed"
        (some e) w.now
      .error { ret := .ok none, doc := d, invoked := ps.invoked ++ ["author"] }
  else .ok ps

/-- Topic-extraction stage of `gen_summary` (lines 153–166). -/
def stageTopic (w : World) (ps : PState) : Except Halted PState :=
  if RUN_TOPIC_EXTRACTION then
    match w.topicB ps.firstPage with
    | .ok topic =>
      let d := { ps.doc with title := some topic }
      let d := d.add_history ps.rid "Topic Extraction" "Success"
        (some topic) w.now
      .ok { ps with doc := d, invoked := ps.invoked ++ ["topic"] }
    | .error e =>
      let d := ps.doc.add_history ps.rid "Topic Extraction" "Failed"
        (some e) w.now
      .error { ret := .ok none, doc := d, invoked := ps.invoked ++ ["topic"] }
  else .ok ps

/-- Slide-extraction stage of `gen_summary` (lines 168–183). -/
def stageSlides (w : World) (ps : PState) : Except Halted PState :=
  if RUN_SLIDE_EXTRACTION then
    match w.slidesB ps.loadedDocs with
    | .ok per_slide =>
      let d := { ps.doc with per_slide_summary := some per_slide }
      let d := d.add_history ps.rid "Slide Extraction" "Success" none w.now
      .ok { ps with doc := d, invoked := ps.invoked ++ ["slides"] }
    | .error e =>
      let d := ps.doc.add_history ps.rid "Slide Extraction" "Failed"
        (some e) w.now
      .error { ret := .ok none, doc := d, invoked := ps.invoked ++ ["slides"] }
  else .ok ps

/-- Short-summary stage of `gen_summary` (lines 185–244): generate, flatten
bullets when detected, one compression pass when over the threshold, accept
the result with a `Warning` when still over.  Any exception raised by one of
the called functions lands in the stage's `except` block (`Failed` entry,
`return None`).  `per_slide_summary` is always set by the preceding stage;
a `None` argument would short-circuit `generate_short_summary` exactly like
an empty list, so `getD []` is faithful. -/
def stageShort (w : World) (ps : PState) : Except Halted PState :=
  if RUN_SHORT_SUMMARY then
    let fail (inv : List String) (d : Document) (e : String) : Except Halted PState :=
      .error { ret := .ok none,
               doc := d.add_history ps.rid "Short Summary Generation" "Failed"
                 (some e) w.now,
               invoked := inv }
    match w.shortB (ps.doc.per_slide_summary.getD []) with
    | .error e => fail (ps.invoked ++ ["short_summary"]) ps.doc e
    | .ok s0 =>
      let inv0 := ps.invoked ++ ["short_summary"]
      match w.bulletsB s0 with
      | .error e => fail inv0 ps.doc e
      | .ok bullets_present =>
        let d0 := if bullets_present then
            ps.doc.add_history ps.rid "Short Summary Generation" "Retry"
              (some ("Bullet points detected : " ++ s0)) w.now
          else ps.doc
        let s1res := if bullets_present then w.filterB s0 else .ok s0
        let inv1 := if bullets_present then inv0 ++ ["filter_bullets"] else inv0
        match s1res with
        | .error e => fail inv1 d0 e
        | .ok s1 =>
          match w.wcB s1 with
          | .error e => fail inv1 d0 e
          | .ok n1 =>
            if n1 > SHORT_SUMMARY_THRESHOLD then
              let d1 := d0.add_history ps.rid "Short Summary Generation" "Retry"
                (some ("Word count exceeded " ++ toString n1 ++ " : " ++ s1)) w.now
              let inv2 := inv1 ++ ["shorten_summary"]
              match w.shortenB s1 with
              | .error e => fail inv2 d1 e
              | .ok s2 =>
                match w.wcB s2 with
                | .error e => fail inv2 d1 e
                | .ok n2 =>
                  let d2 := { d1 with short_summary := some s2 }
                  let d3 := if n2 > SHORT_SUMMARY_THRESHOLD then
                      d2.add_history ps.rid "Short Summary Generation" "Warning"
                        (some ("Word count exceeded " ++ toString n2 ++ " : " ++ s2)) w.now
                    else
                      d2.add_history ps.rid "Short Summary Generation" "Success"
                        (some ("(" ++ toString n2 ++ ") " ++ s2)) w.now
                  .ok { ps with doc := d3, invoked := inv2 }
            else
              let d2 := { d0 with short_summary := some s1 }
              let d3 := d2.add_history ps.rid "Short Summary Generation" "Success"
                (some ("(" ++ toString n1 ++ ") " ++ s1)) w.now
              .ok { ps with doc := d3, invoked := inv1 }
  else .ok ps

/-- First target-extraction stage of `gen_summary` (lines 246–274).  Note the
`finally: document.target = target` clause: on success it (re)assigns the
extracted value even when the gazetteer left it at `"Unknown"`; when the
backend raised, the name `target` was never bound, so the `finally` clause
itself raises `NameError`, which supersedes the pending `return None`. -/
def stageTarget1 (w : World) (ps : PState) : Except Halted PState :=
  if RUN_TARGET_EXTRACTION then
    match w.target1B ps.firstPage ps.fileName with
    | .ok target =>
      let d := if target = "Unknown" then
          ps.doc.add_history ps.rid "Target Extraction" "Failed"
            (some "Target extraction returned 'Unknown'.") w.now
        else
          ({ ps.doc with target := some target }).add_history ps.rid
            "Target Extraction" "Success" (some target) w.now
      let d := { d with target := some target }
      .ok { ps with doc := d, invoked := ps.invoked ++ ["target_first_page"] }
    | .error e =>
      let d := ps.doc.add_history ps.rid "Target Summary Generation" "Failed"
        (some e) w.now
      .error { ret := .error "NameError: name 'target' is not defined",
               doc := d, invoked := ps.invoked ++ ["target_first_page"] }
  else .ok ps

/-- Second target-extraction stage of `gen_summary` (lines 276–308), entered
only when the first stage left `target` at `"Unknown"`. -/
def stageTarget2 (w : World) (ps : PState) : Except Halted PState :=
  if RUN_TARGET_EXTRACTION then
    if ps.doc.target = some "Unknown" then
      let summary_string := String.intercalate " " (ps.doc.per_slide_summary.getD [])
      match w.target2B summary_string ps.doc.title with
      | .ok target =>
        let d := if target = "Unknown" then
            ps.doc.add_history ps.rid "Target Extraction from Summary" "Failed"
              (some "Target extraction from summary returned 'Unknown'.") w.now
          else
            ({ ps.doc with target := some target }).add_history ps.rid
              "Target Extraction from Summary" "Success" (some target) w.now
        .ok { ps with doc := d, invoked := ps.invoked ++ ["target_summary"] }
      | .error e =>
        let d := ps.doc.add_history ps.rid "Target Extraction from Summary"
          "Failed" (some e) w.now
        .error { ret := .ok none, doc := d,
                 invoked := ps.invoked ++ ["target_summary"] }
    else .ok ps
  else .ok ps

/-- Tags block of `gen_summary` (lines 309–312): append the final target to
`tags` unless it is `"Unknown"`.  After `stageTarget1` ran, `target` is
always a string; the `none` case below is unreachable in `gen_summary`. -/
def stageTags (ps : PState) : Except Halted PState :=
  if RUN_TARGET_EXTRACTION then
    match ps.doc.target with
    | some t =>
      if t = "Unknown" then .ok ps
      else .ok { ps with doc := { ps.doc with tags := ps.doc.tags ++ [t] } }
    | none => .ok ps
  else .ok ps

/-- Date-extraction stage of `gen_summary` (lines 314–342): a missing date is
a non-aborting `Failed` entry; a raised exception aborts the run. -/
def stageDate (w : World) (ps : PState) : Except Halted PState :=
  if RUN_DATE_EXTRACTION then
    match w.dateB (basename ps.doc.file_path) ps.firstPage with
    | .ok (some dt) =>
      let d := { ps.doc with date_published := some dt }
      let d := d.add_history ps.rid "Date Extraction" "Success"
        (some (fmtDate dt)) w.now
      .ok { ps with doc := d, invoked := ps.invoked ++ ["date"] }
    | .ok none =>
      let d := ps.doc.add_history ps.rid "Date Extraction" "Failed"
        (some "No date found") w.now
      .ok { ps with doc := d, invoked := ps.invoked ++ ["date"] }
    | .error e =>
      let d := ps.doc.add_history ps.rid "Date Extraction" "Failed"
        (some e) w.now
      .error { ret := .ok none, doc := d, invoked := ps.invoked ++ ["date"] }
  else .ok ps

/-- The stage sequence of `gen_summary` after pre-processing. -/
def runStageChain (w : World) (ps : PState) : Except Halted PState :=
  stageAuthor w ps >>= stageTopic w >>= stageSlides w >>= stageShort w >>=
    stageTarget1 w >>= stageTarget2 w >>= stageTags >>= stageDate w

/-- Pre-processing plus the stage sequence plus persistence and post-hooks of
`gen_summary` (lines 101–360), starting from the working aggregate `doc0`
(either the fresh document or the deep copy of the existing record) and the
computed `run_id`.  A falsy `file_type` makes `"PDF" not in file_type` raise
`TypeError`, which the surrounding `except` turns into `return None`. -/
def runStages (w : World) (file_location : String) (doc0 : Document)
    (rid : Nat) : RunResult :=
  let doc := { doc0 with run_id := some rid }
  let haltNone : RunResult :=
    { ret := .ok none, store' := w.store, invoked := [], hookRuns := [],
      finalDoc := doc }
  if !w.fileIsFile then haltNone
  else match w.fileType with
  | none => haltNone
  | some ft =>
    if !strContains ft "PDF" then haltNone
    else match w.pdfDoc with
    | none => haltNone
    | some pdf =>
      if pdf.first_page_content.isEmpty then haltNone
      else
        let ps : PState :=
          { doc := doc, rid := rid, firstPage := pdf.first_page_content,
            loadedDocs := pdf.loaded_docs,
            fileName := basename file_location, invoked := [] }
        match runStageChain w ps with
        | .error h =>
          { ret := h.ret, store' := w.store, invoked := h.invoked,
            hookRuns := [], finalDoc := h.doc }
        | .ok ps' =>
          let st' := if w.saveFails then w.store else some ps'.doc
          let hr := if RUN_POST_HOOKS then
              match w.hooksEnv with
              | some _ => [ps'.doc]
              | none => []
            else []
          { ret := .ok (some ps'.doc), store' := st', invoked := ps'.invoked,
            hookRuns := hr, finalDoc := ps'.doc }

/-- The pipeline entry point `gen_summary(file_location, origin_ext_path,
force_run)` (lines 39–360).  Faithful to the source, including:

* the fresh aggregate's `doc_hash` is the hash of the current file bytes
  (line 69), but on a hash-mismatch/forced rerun the aggregate is replaced
  wholesale by a deep copy of the existing record (line 99), so the stored
  hash — not the fresh one — is what survives;
* the short-circuit path mutates only `ext_path` on the existing record,
  runs the post hooks against it when `HOOKS_POST` is set, and returns it
  without touching the store;
* the full path persists via `save_document_sync` (errors swallowed) and
  skips the post-hook block because `RUN_POST_HOOKS` is `False`. -/
def gen_summary (w : World) (file_location origin_ext_path : String)
    (force_run : Bool) : RunResult :=
  let document : Document :=
    { id := w.newId, run_id := some 0, file_path := file_location,
      ext_path := some origin_ext_path, file_type := w.fileType,
      doc_hash := some w.fileHash }
  match w.store with
  | some existing =>
    let rid : Nat := (match existing.run_id with
      | some r => r + 1
      | none => 0)
    let document := { document with
      id := existing.id,
      ext_path := some origin_ext_path,
      history := existing.history }
    let existing' := { existing with ext_path := some origin_ext_path }
    if existing'.doc_hash = document.doc_hash ∧ force_run = false then
      let hr := match w.hooksEnv with
        | some _ => [existing']
        | none => []
      { ret := .ok (some existing'), store' := w.store, invoked := [],
        hookRuns := hr, finalDoc := existing' }
    else
      runStages w file_location existing' rid
  | none =>
    runStages w file_location document 0

/-- Modelled from the spec: the generated gazetteer module
`app/constants/target_names.py` is absent from the repository sources (it is
produced by `app/utils/create_target_names.py`, which writes a sorted,
deduplicated list of lower-cased target/gene names).  The members below are
the example targets named in the extraction prompts (Rho, PknB, PptT),
lower-cased as the generator lower-cases every name. -/
def target_names : List String := ["pknb", "pptt", "rho"]

/-- Python keyword-argument binding for a call that passes only keyword
arguments: `.error` with a `TypeError` message when a keyword does not name
a parameter or a required parameter receives no value. -/
def pyBindKwargs (fname : String) (params : List String)
    (required : List String) (kwargs : List String) : Except String Unit :=
  match kwargs.find? (fun k => !params.contains k) with
  | some k =>
    .error ("TypeError: " ++ fname ++ "() got an unexpected keyword argument '"
      ++ k ++ "'")
  | none =>
    match required.find? (fun r => !kwargs.contains r) with
    | some r =>
      .error ("TypeError: " ++ fname ++ "() missing 1 required positional argument: '"
        ++ r ++ "'")
    | none => .ok ()

/-- `LanguageModel.__init__(self, model_type: str, model_name: str = ...,
temperature: float = ...)` (`app/core/llm.py`), called with keyword arguments
only, as at every call site of the extractors. -/
def languageModelInit (kwargs : List String) : Except String Unit :=
  pyBindKwargs "__init__" ["model_type", "model_name", "temperature"]
    ["model_type"] kwargs

/-- The gazetteer gate inside the `try` block of both target extractors
(`target_extractor.py` lines 60–65 and 124–129): take the `"target"` key of
the parsed JSON response (default `""`), strip it, and accept it only when
its lower-cased form is a member of `target_names`; otherwise coerce to
`"Unknown"`. -/
def targetGate (target_response : Option String) : String :=
  let extracted_target := pyStrip (target_response.getD "")
  if target_names.contains (pyLower extracted_target) then extracted_target
  else "Unknown"

/-- `extract_target_from_first_page(first_page_content, file_name)`
(`target_extractor.py` lines 9–68).  `chain` stands for the LLM chain's
response: the `"target"` key of the parsed JSON on success, `.error` for a
raised exception (the function's `try` block turns that into `"Unknown"`).
The `LanguageModel(type="ChatOllama")` construction on line 47 sits *before*
the `try` block, so its exception propagates to the caller. -/
def extract_target_from_first_page
    (chain : String → String → Except String (Option String))
    (first_page_content file_name : String) : Except String String :=
  match languageModelInit ["type"] with
  | .error e => .error e
  | .ok _ =>
    match chain first_page_content file_name with
    | .ok resp => .ok (targetGate resp)
    | .error _ => .ok "Unknown"

/-- `extract_target_from_summary(summary, topic)` (`target_extractor.py`
lines 73–132); the same structure, with the `LanguageModel(type="ChatOllama")`
construction on line 111 before the `try` block. -/
def extract_target_from_summary
    (chain : String → String → Except String (Option String))
    (summary topic : String) : Except String String :=
  match languageModelInit ["type"] with
  | .error e => .error e
  | .ok _ =>
    match chain summary topic with
    | .ok resp => .ok (targetGate resp)
    | .error _ => .ok "Unknown"

/-- `execute_hooks(pipeline, document)` (`app/hooks/registry.py` lines
22–34): run every hook registered for the pipeline in order, each inside its
own `try`/`except`; a raising hook is logged and the loop continues.  The
result records each hook's outcome; the function itself never raises. -/
def execute_hooks (hooks : List (Document → Except String Bool))
    (document : Document) : List (Except String Bool) :=
  hooks.map (fun hook => hook document)

/-- The batch-size clamping of `generate_short_summary`
(`short_summary.py` lines 138–140): `BATCH_1_SIZE = min(BATCH_1_SIZE,
total_slides)` and `BATCH_N_SIZE = min(BATCH_N_SIZE, max(0, total_slides -
BATCH_1_SIZE))` (with `Nat` subtraction matching `max(0, ·)`). -/
def clampBatchSizes (total b1 bn : Nat) : Nat × Nat :=
  let b1' := min b1 total
  (b1', min bn (total - b1'))

/-- `batch_1 = content[:BATCH_1_SIZE]` (`short_summary.py` line 142). -/
def leadBatch (content : List String) (b1' : Nat) : List String :=
  content.take b1'

/-- `batch_n = content[-BATCH_N_SIZE:] if BATCH_N_SIZE > 0 else []`
(`short_summary.py` line 143). -/
def trailingBatch (content : List String) (bn' : Nat) : List String :=
  if bn' > 0 then content.drop (content.length - bn') else []

/-- `middle_content = content[BATCH_1_SIZE : total_slides - BATCH_N_SIZE] if
total_slides > (BATCH_1_SIZE + BATCH_N_SIZE) else []` (`short_summary.py`
lines 144–148). -/
def middleContent (content : List String) (b1' bn' : Nat) : List String :=
  if content.length > b1' + bn' then
    (content.drop b1').take (content.length - bn' - b1')
  else []

/-- The middle-batch loop `for idx in range(0, len(middle_content),
MIDDLE_BATCH_SIZE): batch = middle_content[idx : idx + MIDDLE_BATCH_SIZE]`
(`short_summary.py` lines 158–159), as the list of processed batches. -/
def middleBatches (middle : List String) (m : Nat) : List (List String) :=
  go (middle.length + 1) middle
where
  go : Nat → List String → List (List String)
    | 0, _ => []
    | _, [] => []
    | fuel + 1, l => l.take m :: go fuel (l.drop m)

/-- The batching plan of one `generate_short_summary` call: the Lead batch,
the Middle batches, the Trailing batch, and whether the Trailing batch is
sent to the backend (`if batch_n:` on line 173 — an empty list skips the
call and uses `""`). -/
def summaryBatchPlan (content : List String) (b1 bn m : Nat) :
    List String × List (List String) × List String × Bool :=
  let c := clampBatchSizes content.length b1 bn
  let lead := leadBatch content c.1
  let trail := trailingBatch content c.2
  let mid := middleBatches (middleContent content c.1 c.2) m
  (lead, mid, trail, !trail.isEmpty)

/-- Python `\s` on ASCII text: space, tab, newline, carriage return,
vertical tab, form feed. -/
def wsChar (c : Char) : Bool :=
  c = ' ' || c = '\t' || c = '\n' || c = '\r' || c = '\x0b' || c = '\x0c'

/-- The character class `[,\s]` of the date regex. -/
def commaWsChar (c : Char) : Bool := c = ',' || wsChar c

/-- The character class matching a hyphen or a slash in the date regex. -/
def sepChar (c : Char) : Bool := c = '-' || c = '/'

/-- Python `\w` (ASCII range, which covers every input considered here). -/
def wordChar (c : Char) : Bool := c.isAlphanum || c = '_'

/-- The month alternation of `date_extractor.py`, in the order written in the
regex (full names first, then the three-letter abbreviations; `May` occurs
twice, as in the source). -/
def monthAlts : List String :=
  ["January", "February", "March", "April", "May", "June", "July", "August",
   "September", "October", "November", "December",
   "Jan", "Feb", "Mar", "Apr", "May", "Jun", "Jul", "Aug", "Sep", "Oct",
   "Nov", "Dec"]

/-- Case-insensitive literal match at the front of `l`; returns the consumed
length on success (`re.IGNORECASE`). -/
def matchLitCI : List Char → List Char → Option Nat
  | [], _ => some 0
  | _ :: _, [] => none
  | p :: ps, c :: cs =>
    if p.toLower = c.toLower then (matchLitCI ps cs).map (· + 1) else none

/-- A regex component matcher: all consumed lengths it can take at the front
of the input, in the engine's backtracking preference order (greedy
quantifiers list longer matches first; ordered alternation lists earlier
alternatives first). -/
def seqM (f g : List Char → List Nat) (l : List Char) : List Nat :=
  (f l).flatMap (fun n => (g (l.drop n)).map (n + ·))

/-- A case-insensitive literal as a component matcher. -/
def litCI (s : String) (l : List Char) : List Nat :=
  match matchLitCI s.data l with
  | some n => [n]
  | none => []

/-- Ordered alternation of component matchers. -/
def altM (fs : List (List Char → List Nat)) (l : List Char) : List Nat :=
  fs.flatMap (fun f => f l)

/-- The month alternation as a component matcher. -/
def monthM : List Char → List Nat := altM (monthAlts.map litCI)

/-- `\d{k}` (exactly `k` digits). -/
def dExact (k : Nat) (l : List Char) : List Nat :=
  if (l.take k).length = k && (l.take k).all Char.isDigit then [k] else []

/-- `\d{1,2}`, greedy: two digits preferred over one. -/
def d12 (l : List Char) : List Nat :=
  match l with
  | a :: b :: _ => if a.isDigit then (if b.isDigit then [2, 1] else [1]) else []
  | [a] => if a.isDigit then [1] else []
  | [] => []

/-- `(?:st|nd|rd|th)?` — the present alternatives in order, then absence. -/
def ordSuf (l : List Char) : List Nat :=
  altM [litCI "st", litCI "nd", litCI "rd", litCI "th"] l ++ [0]

/-- A greedy star over a character class: the full run first, down to zero. -/
def starM (p : Char → Bool) (l : List Char) : List Nat :=
  (List.range ((l.takeWhile p).length + 1)).reverse

/-- A single hyphen-or-slash separator. -/
def oneSep (l : List Char) : List Nat :=
  match l with
  | c :: _ => if sepChar c then [1] else []
  | [] => []

/-- Alternative 1 of the date regex:
`\d{1,2}(?:st|nd|rd|th)?\s*(month)[,\s]*\d{4}`. -/
def alt1 : List Char → List Nat :=
  seqM d12 (seqM ordSuf (seqM (starM wsChar)
    (seqM monthM (seqM (starM commaWsChar) (dExact 4)))))

/-- Alternative 2: `(month)[,\s]*\d{1,2}(?:st|nd|rd|th)?[,\s]*\d{4}`. -/
def alt2 : List Char → List Nat :=
  seqM monthM (seqM (starM commaWsChar)
    (seqM d12 (seqM ordSuf (seqM (starM commaWsChar) (dExact 4)))))

/-- Alternative 3: `\d{4} sep \d{1,2} sep \d{1,2}` (sep a hyphen or slash). -/
def alt3 : List Char → List Nat :=
  seqM (dExact 4) (seqM oneSep (seqM d12 (seqM oneSep d12)))

/-- Alternative 4: `\d{1,2} sep \d{1,2} sep \d{4}`. -/
def alt4 : List Char → List Nat :=
  seqM d12 (seqM oneSep (seqM d12 (seqM oneSep (dExact 4))))

/-- Alternative 5: `\d{1,2} sep \d{1,2} sep \d{2}`. -/
def alt5 : List Char → List Nat :=
  seqM d12 (seqM oneSep (seqM d12 (seqM oneSep (dExact 2))))

/-- The full capture-group alternation of `date_regex`, candidates in
backtracking preference order. -/
def dateAlts (l : List Char) : List Nat :=
  alt1 l ++ alt2 l ++ alt3 l ++ alt4 l ++ alt5 l

/-- Try the date pattern at the current position: the first alternation
candidate whose end satisfies the trailing `(?!\d)` lookahead. -/
def dateMatchAt (l : List Char) : Option Nat :=
  (dateAlts l).find? (fun n =>
    match l.drop n with
    | c :: _ => !c.isDigit
    | [] => true)

/-- `re.findall(date_regex, text, re.IGNORECASE)`: scan left to right,
non-overlapping; the leading `(?<!\d)` lookbehind is checked against the
previous character.  Every alternative consumes at least four characters, so
a zero-length match cannot occur; `fuel` only bounds the recursion. -/
def scanDates : Nat → Option Char → List Char → List String
  | 0, _, _ => []
  | _ + 1, _, [] => []
  | fuel + 1, prev, c :: rest =>
    let behindOk := match prev with
      | some p => !p.isDigit
      | none => true
    match (if behindOk then dateMatchAt (c :: rest) else none) with
    | some (n + 1) =>
      String.mk ((c :: rest).take (n + 1)) ::
        scanDates fuel (some (((c :: rest).take (n + 1)).getLastD c))
          ((c :: rest).drop (n + 1))
    | _ => scanDates fuel (some c) rest

/-- The date-candidate extraction of `extract_date`
(`app/service/nlp/ppt/date_extractor.py` lines 62–82). -/
def dateCandidates (text : String) : List String :=
  scanDates (text.length + 1) none text.data

/-- `re.sub(r"\s+", " ", text)`: collapse whitespace runs to single spaces. -/
def collapseWs : Nat → List Char → List Char
  | 0, _ => []
  | _ + 1, [] => []
  | fuel + 1, c :: rest =>
    if wsChar c then ' ' :: collapseWs fuel (rest.dropWhile wsChar)
    else c :: collapseWs fuel rest

/-- `re.sub` deleting every character that is not a word character, whitespace,
comma, period, slash or hyphen (the second substitution of `preprocess_text`). -/
def removeOther (l : List Char) : List Char :=
  l.filter (fun c => wordChar c || wsChar c || c = ',' || c = '.' || c = '/' || c = '-')

/-- `re.sub(r"(?<=[a-zA-Z])(?=(month))", " ", text, re.IGNORECASE)`: insert a
space between a letter and an immediately following month name. -/
def insertSpaceBeforeMonth : Nat → Option Char → List Char → List Char
  | 0, _, _ => []
  | _ + 1, _, [] => []
  | fuel + 1, prev, c :: rest =>
    let letterBefore := match prev with
      | some p => p.isAlpha
      | none => false
    if letterBefore && !(monthM (c :: rest)).isEmpty then
      ' ' :: c :: insertSpaceBeforeMonth fuel (some c) rest
    else c :: insertSpaceBeforeMonth fuel (some c) rest

/-- `re.sub(r"(month)(?=\d)", r"\1 ", text, re.IGNORECASE)`: append a space
to a month name immediately followed by a digit. -/
def spaceAfterMonth : Nat → List Char → List Char
  | 0, _ => []
  | _ + 1, [] => []
  | fuel + 1, c :: rest =>
    match (monthM (c :: rest)).find? (fun n =>
        match (c :: rest).drop n with
        | d :: _ => d.isDigit
        | [] => false) with
    | some (n + 1) =>
      (c :: rest).take (n + 1) ++ ' ' :: spaceAfterMonth fuel ((c :: rest).drop (n + 1))
    | _ => c :: spaceAfterMonth fuel rest

/-- `re.sub(r"(\d)(st|nd|rd|th)", r"\1", text, re.IGNORECASE)`: drop ordinal
suffixes after a digit. -/
def dropOrdinals : Nat → List Char → List Char
  | 0, _ => []
  | _ + 1, [] => []
  | fuel + 1, c :: rest =>
    if c.isDigit then
      match altM [litCI "st", litCI "nd", litCI "rd", litCI "th"] rest with
      | n :: _ => c :: dropOrdinals fuel (rest.drop n)
      | [] => c :: dropOrdinals fuel rest
    else c :: dropOrdinals fuel rest

/-- `preprocess_text` (`app/service/nlp/ppt/date_extractor.py` lines 7–46). -/
def preprocess_text (text : String) : String :=
  let t1 := collapseWs (text.length + 1) text.data
  let t2 := removeOther t1
  let t3 := insertSpaceBeforeMonth (t2.length + 1) none t2
  let t4 := spaceAfterMonth (t3.length + 1) t3
  let t5 := dropOrdinals (t4.length + 1) t4
  let t6 := collapseWs (t5.length + 1) t5
  pyStrip (String.mk t6)

/-- Month-name lookup (case-insensitive, full or three-letter name). -/
def monthNumber (s : String) : Option Nat :=
  let t := pyLower s
  let full := ["january", "february", "march", "april", "may", "june", "july",
    "august", "september", "october", "november", "december"]
  match full.findIdx? (fun m => m = t || String.mk (m.data.take 3) = t) with
  | some i => some (i + 1)
  | none => none

/-- Days in a month (proleptic Gregorian). -/
def daysInMonth (y m : Nat) : Nat :=
  if m = 2 then
    if y % 4 = 0 && (y % 100 ≠ 0 || y % 400 = 0) then 29 else 28
  else if m = 4 || m = 6 || m = 9 || m = 11 then 30
  else 31

/-- Is `(y, m, d)` a valid calendar date? -/
def validDate (y m d : Nat) : Bool :=
  1 ≤ m && m ≤ 12 && 1 ≤ d && d ≤ daysInMonth y m

/-- A decimal-digit string as a number. -/
def parseNat (s : String) : Option Nat :=
  if s ≠ "" && s.data.all Char.isDigit then s.toNat? else none

/-- Modelled from the spec: `dateparser.parse(candidate,
settings={"STRICT_PARSING": False, "PREFER_DAY_OF_MONTH": "first"})` — the
external `dateparser` library, not repository code.  Per the spec's date
policy, month-year phrases resolve to the first day of the month
("day of month defaulting to the first"), full dates resolve as written,
ISO `YYYY-MM-DD` strings resolve to themselves, and only valid calendar
dates are produced. -/
def pyDateparserParse (s : String) : Option Date :=
  let toks := (s.data.map (fun c =>
    if c = ',' || c = '-' || c = '/' || wsChar c then ' ' else c))
  let parts := (toks.splitOn ' ').filterMap (fun t =>
    if t.isEmpty then none else some (String.mk t))
  let mk (y m d : Nat) : Option Date :=
    if validDate y m d then some ⟨y, m, d⟩ else none
  match parts with
  | [a, b, c] =>
    match parseNat a, parseNat b, parseNat c with
    | some y, some m, some d =>
      if a.length = 4 then mk y m d
      else if c.length = 4 then mk (parseNat c).iget y m else none
    | some d, none, some y =>
      if c.length = 4 then (monthNumber b).bind (fun m => mk y m d) else none
    | none, some d, some y =>
      if c.length = 4 then (monthNumber a).bind (fun m => mk y m d) else none
    | _, _, _ => none
  | [a, b] =>
    match parseNat b, monthNumber a with
    | some y, some m => if b.length = 4 then mk y m 1 else none
    | _, _ =>
      match parseNat a, monthNumber b with
      | some y, some m => if a.length = 4 then mk y m 1 else none
      | _, _ => none
  | _ => none

/-- The nested `parse_with_dateparser(date_candidates)` of `extract_date`:
the first candidate `dateparser` can parse, as a `"%Y-%m-%d"` string
(`date.strftime("%Y-%m-%d")`), else `None`. -/
def parse_with_dateparser (cands : List String) : Option String :=
  cands.findSome? (fun c => (pyDateparserParse c).map fmtDate)

/-- `extract_dates_from_first_page(first_page_content, file_name)`
(`app/service/lm/ppt/extractors/date_extractor.py` lines 9–59).  As in the
target extractors, `LanguageModel(type="ChatOllama")` on line 44 precedes
the `try` block, so its exception propagates. -/
def extract_dates_from_first_page
    (chain : String → String → Except String (List String))
    (first_page_content file_name : String) : Except String (List String) :=
  match languageModelInit ["type"] with
  | .error e => .error e
  | .ok _ =>
    match chain first_page_content file_name with
    | .ok ds => .ok ds
    | .error _ => .ok ["Unknown"]

/-- `extract_date(file_name, first_page_content)`
(`app/service/nlp/ppt/date_extractor.py` lines 49–125): candidates from the
file name, then from the preprocessed first page, then from the LLM
fallback; each winning candidate is formatted to `"%Y-%m-%d"` and re-parsed
with `dateparser` before being returned. -/
def extract_date
    (chain : String → String → Except String (List String))
    (file_name first_page_content : String) : Except String (Option Date) :=
  match parse_with_dateparser (dateCandidates file_name) with
  | some d => .ok (pyDateparserParse d)
  | none =>
    let preprocessed_content := preprocess_text first_page_content
    match parse_with_dateparser (dateCandidates preprocessed_content) with
    | some d => .ok (pyDateparserParse d)
    | none =>
      match extract_dates_from_first_page chain first_page_content file_name with
      | .error e => .error e
      | .ok extracted_dates =>
        match parse_with_dateparser extracted_dates with
        | some d => .ok (pyDateparserParse d)
        | none => .ok none

/-- A stored `Document` record for the path `/d/f.pdf`, as left behind by an
earlier successful run 0 whose file bytes hashed to `"hashOLD"`. -/
def exDoc : Document :=
  { id := 7, run_id := some 0, file_path := "/d/f.pdf",
    ext_path := some "/x/f.pdf",
    file_type := some "PDF document, version 1.4",
    doc_hash := some "hashOLD",
    per_slide_summary := some ["old s1"], short_summary := some "old sum",
    title := some "Old title", target := some "PknB", tags := ["PknB"],
    history := [{ run_id := 0, step := "Author Extraction", timestamp := 1,
                  status := "Success", details := some "A. Author" }] }

/-- A world in which the stored record for `/d/f.pdf` is `exDoc`, the file's
current bytes hash to `"hashNEW"` (≠ the stored `"hashOLD"`), `HOOKS_POST`
is set, and every backend succeeds. -/
def fullRunWorld : World :=
  { fileIsFile := true, fileType := some "PDF document, version 1.4",
    fileHash := "hashNEW",
    pdfDoc := some { first_page_content := "page one",
                     loaded_docs := ["p1", "p2"] },
    store := some exDoc, hooksEnv := some "post", now := 5, newId := 99,
    saveFails := false,
    authorB := fun _ _ => .ok ["A. Author"],
    topicB := fun _ => .ok "New topic",
    slidesB := fun _ => .ok ["s1", "s2"],
    shortB := fun _ => .ok "summary text",
    bulletsB := fun _ => .ok false,
    wcB := fun s => .ok s.length,
    filterB := fun s => .ok s,
    shortenB := fun s => .ok ("short " ++ s),
    target1B := fun _ _ => .ok "PknB",
    target2B := fun _ _ => .ok "Unknown",
    dateB := fun _ _ => .ok (some ⟨2021, 3, 1⟩) }

/-- `fullRunWorld` with the file bytes unchanged since run 0: the current
hash equals the stored one, so an unforced call short-circuits. -/
def shortCircuitWorld : World := { fullRunWorld with fileHash := "hashOLD" }

/-- `fullRunWorld` with an author backend that raises. -/
def authorFailWorld : World :=
  { fullRunWorld with authorB := fun _ _ => .error "boom" }

/-- A `PState` as it stands when the stage chain begins on a fresh document
for `/d/f.pdf` (used to instantiate stage-level theorems). -/
def exPState : PState :=
  { doc := { id := 99, run_id := some 0, file_path := "/d/f.pdf",
             ext_path := some "/x/f.pdf",
             file_type := some "PDF document, version 1.4",
             doc_hash := some "hashNEW",
             per_slide_summary := some ["s1", "s2"] },
    rid := 0, firstPage := "page one", loadedDocs := ["p1", "p2"],
    fileName := "f.pdf", invoked := [] }

/-- The projection of a history entry compared by the abort theorems:
step, status and details (the exception message). -/
def entrySketch (h : PipelineHistory) : String × String × Option String :=
  (h.step, h.status, h.details)

/-- The observable consequences of an aborted run: `return None`, the store
untouched, and the last history entry of the (discarded) in-memory aggregate
being the `Failed` entry of the aborting stage with the exception message. -/
def abortP (w : World) (loc ext : String) (force : Bool) (step e : String) : Prop :=
  (gen_summary w loc ext force).ret = .ok none ∧
  (gen_summary w loc ext force).store' = w.store ∧
  ((gen_summary w loc ext force).finalDoc.history.getLast?).map entrySketch =
    some (step, "Failed", some e)

/-- `fullRunWorld` with a short-summary pipeline that produces a bulleted
summary which, even after flattening and one compression pass, stays at 200
counted words — over the 160-word threshold. -/
def lengthGateWorld : World :=
  { fullRunWorld with
    shortB := fun _ => .ok "bullet summary",
    bulletsB := fun _ => .ok true,
    filterB := fun _ => .ok "flattened prose",
    wcB := fun _ => .ok 200,
    shortenB := fun _ => .ok "compressed prose" }

/-- **C1.** The claim states that a rerun triggered by a hash mismatch
returns and persists a `Document` whose `doc_hash` equals the hash of the
current file bytes.  Evaluating `gen_summary` at such an input (stored
record `exDoc` with hash `"hashOLD"` and `run_id 0`; current bytes hashing
to `"hashNEW"`; every backend succeeding) shows the run does re-execute all
stages and increments `run_id` to 1, but the returned and persisted document
keeps the *stored* hash `"hashOLD"`: line 99's
`document = copy.deepcopy(existing_document)` discards the fresh hash
computed on line 69, contradicting the spec's `content_hash` invariant. -/
theorem c1_rerun_keeps_stale_hash :
    (gen_summary fullRunWorld "/d/f.pdf" "/x/f.pdf" false).finalDoc.run_id = some 1 ∧
    (gen_summary fullRunWorld "/d/f.pdf" "/x/f.pdf" false).finalDoc.doc_hash = some "hashOLD" ∧
    (gen_summary fullRunWorld "/d/f.pdf" "/x/f.pdf" false).ret =
      .ok (some (gen_summary fullRunWorld "/d/f.pdf" "/x/f.pdf" false).finalDoc) ∧
    (gen_summary fullRunWorld "/d/f.pdf" "/x/f.pdf" false).store' =
      some (gen_summary fullRunWorld "/d/f.pdf" "/x/f.pdf" false).finalDoc ∧
    exDoc.doc_hash = some "hashOLD" ∧ exDoc.run_id = some 0 ∧
    fullRunWorld.fileHash = "hashNEW" ∧
    (gen_summary fullRunWorld "/d/f.pdf" "/x/f.pdf" false).finalDoc.doc_hash ≠
      some fullRunWorld.fileHash := by
  refine ⟨rfl, rfl, rfl, rfl, rfl, rfl, rfl, ?_⟩
  decide

/-- **C7.** Batch clamping of the summarization reducer: a single-slide
input with the default Lead=2/Trailing=2/Middle=10 configuration yields
exactly one Lead batch holding the slide, no Middle batches, no Trailing
batch (and the Trailing backend call is skipped); in general the clamped
sizes satisfy Lead′ + Trailing′ ≤ total, and when the input is too small
for both, Trailing shrinks to zero while Lead takes the whole input; the
three groups exactly cover a single-slide input, so no indexing can be out
of range. -/
theorem c7_batch_clamping :
    (∀ s : String, summaryBatchPlan [s] 2 2 10 = ([s], [], [], false)) ∧
    (∀ total b1 bn,
      (clampBatchSizes total b1 bn).1 + (clampBatchSizes total b1 bn).2 ≤ total) ∧
    (∀ total k bn, clampBatchSizes total (total + k) bn = (total, 0)) ∧
    (∀ s : String,
      leadBatch [s] 1 ++ middleContent [s] 1 0 ++ trailingBatch [s] 0 = [s]) := by
  refine ⟨fun s => rfl, fun total b1 bn => ?_, fun total k bn => ?_, fun s => rfl⟩
  · simp only [clampBatchSizes]
    omega
  · simp only [clampBatchSizes, Prod.mk.injEq]
    omega

/-- **C8 counterexample.** The claim states that on a full (non-short-
circuited) run with the hook pipeline name configured, the orchestrator
invokes the hook dispatcher with the final record after persistence.  In
`fullRunWorld` the `HOOKS_POST` name is set, every backend succeeds, and the
run completes and persists — yet no hook dispatch happens, because
`gen_summary` hard-codes `RUN_POST_HOOKS = False`. -/
theorem c8_counterexample :
    fullRunWorld.hooksEnv = some "post" ∧
    (gen_summary fullRunWorld "/d/f.pdf" "/x/f.pdf" false).hookRuns = [] ∧
    (gen_summary fullRunWorld "/d/f.pdf" "/x/f.pdf" false).store' =
      some (gen_summary fullRunWorld "/d/f.pdf" "/x/f.pdf" false).finalDoc ∧
    (gen_summary fullRunWorld "/d/f.pdf" "/x/f.pdf" false).ret =
      .ok (some (gen_summary fullRunWorld "/d/f.pdf" "/x/f.pdf" false).finalDoc) :=
  ⟨rfl, rfl, rfl, rfl⟩

/-- **C9 counterexample.** The claim states that for *every* first-page
content, `extract_date` with file name `"March_2021_ProteinX.pdf"` returns
2021-03-01, resolved from the filename-embedded "March 2021" token.  With
empty first-page content (and any LLM chain — here one returning no dates)
the call does not return that date: the candidate regex matches nothing in
the file name, and the run falls through to the LLM fallback, which raises
`TypeError` from its `LanguageModel(type=...)` construction. -/
theorem c9_counterexample :
    extract_date (fun _ _ => .ok []) "March_2021_ProteinX.pdf" "" ≠
      .ok (some { year := 2021, month := 3, day := 1 }) := by
  have h1 : extract_date (fun _ _ => .ok []) "March_2021_ProteinX.pdf" "" =
      .error "TypeError: __init__() got an unexpected keyword argument 'type'" := rfl
  rw [h1]
  intro h
  exact Except.noConfusion h

/-- **C9 amended.** `extract_date` never resolves a date from the file name
`"March_2021_ProteinX.pdf"`: the date regex finds no candidate in it (the
underscore is not matched by the month–day separator class, and the pattern
has no month-year alternative at all — even `"March 2021"` with a space
yields no candidate), so the result is determined by the first-page content
and the LLM fallback alone; with content containing no date-like phrase the
call raises `TypeError` from the fallback's `LanguageModel(type=...)`
construction instead of returning any date. -/
theorem c9_amended :
    dateCandidates "March_2021_ProteinX.pdf" = [] ∧
    dateCandidates "March 2021" = [] ∧
    (∀ chain, extract_date chain "March_2021_ProteinX.pdf" "" =
      .error "TypeError: __init__() got an unexpected keyword argument 'type'") := by
  refine ⟨by decide, by decide, fun chain => rfl⟩

/-- **C10.** The claim states both target extractors catch all internal
exceptions and always return `"Unknown"` or a gazetteer member, making the
orchestrator's exception branch unreachable.  In fact both construct the
language model with `LanguageModel(type="ChatOllama")` *before* their `try`
blocks, while `LanguageModel.__init__` has no parameter named `type` — so
every call raises `TypeError` and never returns; the orchestrator's
exception branch for the first target stage is therefore always taken
(appending the `Failed` entry and then raising `NameError` from the
`finally` clause's unbound `target`). -/
theorem c10_target_extractors_always_raise :
    (∀ chain fp fn, extract_target_from_first_page chain fp fn =
      .error "TypeError: __init__() got an unexpected keyword argument 'type'") ∧
    (∀ chain s t, extract_target_from_summary chain s t =
      .error "TypeError: __init__() got an unexpected keyword argument 'type'") ∧
    (∀ (chain : String → String → Except String (Option String))
       (w : World) (ps : PState),
      stageTarget1 { w with target1B := extract_target_from_first_page chain } ps =
        .error { ret := .error "NameError: name 'target' is not defined",
                 doc := ps.doc.add_history ps.rid "Target Summary Generation"
                   "Failed"
                   (some "TypeError: __init__() got an unexpected keyword argument 'type'")
                   w.now,
                 invoked := ps.invoked ++ ["target_first_page"] }) :=
  ⟨fun _ _ _ => rfl, fun _ _ _ => rfl, fun _ _ _ => rfl⟩

/-- `Except` bind on a success reduces to the continuation. -/
theorem exceptBindOk {α β : Type} (a : α) (f : α → Except Halted β) :
    (Except.ok a >>= f) = f a := rfl

/-- `Except` bind on a failure short-circuits. -/
theorem exceptBindErr {α β : Type} (e : Halted) (f : α → Except Halted β) :
    ((Except.error e : Except Halted α) >>= f) = Except.error e := rfl

/-- **C2.** With `force_run = false` and a stored record whose hash equals
the hash of the current file bytes, `gen_summary` short-circuits: it returns
the stored record (only its caller-visible `ext_path` refreshed) with the
same `doc_hash`, the same `run_id` and the same `history`, leaves the store
untouched and invokes no extraction backend; the store being unchanged,
repeated unforced calls on fixed file content return the same record. -/
theorem c2_short_circuit (w : World) (loc ext : String) (ex : Document)
    (hs : w.store = some ex) (hh : ex.doc_hash = some w.fileHash) :
    gen_summary w loc ext false =
      { ret := .ok (some { ex with ext_path := some ext }),
        store' := w.store, invoked := [],
        hookRuns := match w.hooksEnv with
          | some _ => [{ ex with ext_path := some ext }]
          | none => [],
        finalDoc := { ex with ext_path := some ext } } ∧
    ({ ex with ext_path := some ext } : Document).doc_hash = ex.doc_hash ∧
    ({ ex with ext_path := some ext } : Document).run_id = ex.run_id ∧
    ({ ex with ext_path := some ext } : Document).history = ex.history := by
  refine ⟨?_, rfl, rfl, rfl⟩
  unfold gen_summary
  rw [hs]
  simp [hh]

/-- **C2 witness.** The short-circuit theorem applied at the concrete world
`shortCircuitWorld`, whose stored record `exDoc` carries the hash of the
current file bytes. -/
theorem c2_witness :
    shortCircuitWorld.store = some exDoc ∧
    exDoc.doc_hash = some shortCircuitWorld.fileHash ∧
    gen_summary shortCircuitWorld "/d/f.pdf" "/x/f.pdf" false =
      { ret := .ok (some { exDoc with ext_path := some "/x/f.pdf" }),
        store' := shortCircuitWorld.store, invoked := [],
        hookRuns := match shortCircuitWorld.hooksEnv with
          | some _ => [{ exDoc with ext_path := some "/x/f.pdf" }]
          | none => [],
        finalDoc := { exDoc with ext_path := some "/x/f.pdf" } } :=
  ⟨rfl, rfl,
    (c2_short_circuit shortCircuitWorld "/d/f.pdf" "/x/f.pdf" exDoc rfl rfl).1⟩

/-- **C3.** If the author, topic, slide or short-summary backend raises
(and the run is not short-circuited by an unchanged hash), `gen_summary`
appends a `Failed` history entry carrying the exception message to the
in-memory aggregate, returns `None`, and never reaches the persistence
call: the store — and with it the previously stored record, if any — is
unchanged, so the partially built aggregate and its new entries are
discarded. -/
theorem c3_backend_error_aborts (w : World) (loc ext : String) (force : Bool)
    (ft : String) (hft : w.fileType = some ft)
    (hpdfT : strContains ft "PDF" = true)
    (hisf : w.fileIsFile = true)
    (pdf : PdfDoc) (hpdf : w.pdfDoc = some pdf)
    (hfp : pdf.first_page_content.isEmpty = false)
    (hnsc : ∀ ex, w.store = some ex →
      ¬(ex.doc_hash = some w.fileHash ∧ force = false)) :
    (∀ e, w.authorB pdf.first_page_content (basename loc) = .error e →
      abortP w loc ext force "Author Extraction" e) ∧
    (∀ authors e, w.authorB pdf.first_page_content (basename loc) = .ok authors →
      w.topicB pdf.first_page_content = .error e →
      abortP w loc ext force "Topic Extraction" e) ∧
    (∀ authors topic e,
      w.authorB pdf.first_page_content (basename loc) = .ok authors →
      w.topicB pdf.first_page_content = .ok topic →
      w.slidesB pdf.loaded_docs = .error e →
      abortP w loc ext force "Slide Extraction" e) ∧
    (∀ authors topic slides e,
      w.authorB pdf.first_page_content (basename loc) = .ok authors →
      w.topicB pdf.first_page_content = .ok topic →
      w.slidesB pdf.loaded_docs = .ok slides →
      w.shortB slides = .error e →
      abortP w loc ext force "Short Summary Generation" e) := by
  have hgen : ∃ d0 rid, gen_summary w loc ext force = runStages w loc d0 rid := by
    unfold gen_summary
    cases hst : w.store with
    | none => exact ⟨_, _, rfl⟩
    | some ex =>
      have hn := hnsc ex hst
      simp only []
      split
      · next hcond => exact absurd ⟨by simpa using hcond.1, hcond.2⟩ hn
      · exact ⟨_, _, rfl⟩
  obtain ⟨d0, rid, hgen⟩ := hgen
  refine ⟨?_, ?_, ?_, ?_⟩
  · intro e ha
    unfold abortP
    rw [hgen]
    unfold runStages
    simp only [hisf, hft, hpdf, Bool.not_true, Bool.false_eq_true, if_false,
      hpdfT, Bool.not_false, hfp]
    simp only [runStageChain, stageAuthor, RUN_AUTHOR_EXTRACTION, if_true, ha,
      exceptBindErr]
    simp [entrySketch, Document.add_history]
  · intro authors e ha ht
    unfold abortP
    rw [hgen]
    unfold runStages
    simp only [hisf, hft, hpdf, Bool.not_true, Bool.false_eq_true, if_false,
      hpdfT, Bool.not_false, hfp]
    simp only [runStageChain, stageAuthor, RUN_AUTHOR_EXTRACTION, if_true, ha,
      exceptBindOk, stageTopic, RUN_TOPIC_EXTRACTION, ht, exceptBindErr]
    simp [entrySketch, Document.add_history]
  · intro authors topic e ha ht hsl
    unfold abortP
    rw [hgen]
    unfold runStages
    simp only [hisf, hft, hpdf, Bool.not_true, Bool.false_eq_true, if_false,
      hpdfT, Bool.not_false, hfp]
    simp only [runStageChain, stageAuthor, RUN_AUTHOR_EXTRACTION, if_true, ha,
      exceptBindOk, stageTopic, RUN_TOPIC_EXTRACTION, ht, stageSlides,
      RUN_SLIDE_EXTRACTION, hsl, exceptBindErr]
    simp [entrySketch, Document.add_history]
  · intro authors topic slides e ha ht hsl hss
    unfold abortP
    rw [hgen]
    unfold runStages
    simp only [hisf, hft, hpdf, Bool.not_true, Bool.false_eq_true, if_false,
      hpdfT, Bool.not_false, hfp]
    simp only [runStageChain, stageAuthor, RUN_AUTHOR_EXTRACTION, if_true, ha,
      exceptBindOk, stageTopic, RUN_TOPIC_EXTRACTION, ht, stageSlides,
      RUN_SLIDE_EXTRACTION, hsl, stageShort, RUN_SHORT_SUMMARY,
      Document.add_history, Option.getD_some, hss, exceptBindErr]
    simp [entrySketch, Document.add_history]

/-- **C3 witness.** The abort theorem applied at `authorFailWorld`, whose
author backend raises `"boom"` while the stored record's hash differs from
the current one. -/
theorem c3_witness :
    authorFailWorld.authorB "page one" (basename "/d/f.pdf") = .error "boom" ∧
    abortP authorFailWorld "/d/f.pdf" "/x/f.pdf" false "Author Extraction" "boom" := by
  refine ⟨rfl, ?_⟩
  refine (c3_backend_error_aborts authorFailWorld "/d/f.pdf" "/x/f.pdf" false
    "PDF document, version 1.4" rfl (by decide) rfl
    { first_page_content := "page one", loaded_docs := ["p1", "p2"] } rfl rfl
    ?_).1 "boom" rfl
  intro ex hex hcon
  have hx : exDoc = ex := by
    have : some exDoc = some ex := hex
    exact Option.some.inj this
  rw [← hx] at hcon
  exact absurd hcon.1 (by decide)

/-- **C4.** In the short-summary stage, once the (possibly bullet-flattened)
summary counts over the 160-word threshold, exactly one compression pass
runs — with the bullet-flattening transform applied exactly when bullet
structure was detected — and if the compressed result still counts over the
threshold the stage does not fail: the over-length text is stored in
`short_summary` and a `Warning` history entry recording the actual word
count is appended. -/
theorem c4_length_gate (w : World) (ps : PState) (s0 s1 s2 : String)
    (b : Bool) (n1 n2 : Nat)
    (h0 : w.shortB (ps.doc.per_slide_summary.getD []) = .ok s0)
    (hb : w.bulletsB s0 = .ok b)
    (h1 : (if b then w.filterB s0 else .ok s0) = .ok s1)
    (hn1 : w.wcB s1 = .ok n1) (hgt1 : n1 > SHORT_SUMMARY_THRESHOLD)
    (h2 : w.shortenB s1 = .ok s2)
    (hn2 : w.wcB s2 = .ok n2) (hgt2 : n2 > SHORT_SUMMARY_THRESHOLD) :
    ∃ ps', stageShort w ps = .ok ps' ∧
      ps'.doc.short_summary = some s2 ∧
      (ps'.doc.history.getLast?).map entrySketch =
        some ("Short Summary Generation", "Warning",
          some ("Word count exceeded " ++ toString n2 ++ " : " ++ s2)) ∧
      ps'.invoked = ps.invoked ++ ["short_summary"] ++
        (if b then ["filter_bullets"] else []) ++ ["shorten_summary"] := by
  unfold stageShort
  simp only [RUN_SHORT_SUMMARY, if_true, h0, hb]
  cases b with
  | true =>
    simp only [if_true] at h1 ⊢
    simp only [h1, hn1, hgt1, if_pos hgt1, h2, hn2, if_pos hgt2]
    refine ⟨_, rfl, rfl, ?_, by simp⟩
    simp [entrySketch, Document.add_history]
  | false =>
    simp only [if_false, Bool.false_eq_true] at h1 ⊢
    cases h1
    simp only [hn1, hgt1, if_pos hgt1, h2, hn2, if_pos hgt2]
    refine ⟨_, rfl, rfl, ?_, by simp⟩
    simp [entrySketch, Document.add_history]

/-- **C4 witness.** The length-gate theorem applied at `lengthGateWorld`,
whose summary is bulleted and still counts 200 words after flattening and
after the single compression pass. -/
theorem c4_witness :
    (200 > SHORT_SUMMARY_THRESHOLD) ∧
    ∃ ps', stageShort lengthGateWorld exPState = .ok ps' ∧
      ps'.doc.short_summary = some "compressed prose" ∧
      (ps'.doc.history.getLast?).map entrySketch =
        some ("Short Summary Generation", "Warning",
          some ("Word count exceeded " ++ toString 200 ++ " : " ++ "compressed prose")) ∧
      ps'.invoked = exPState.invoked ++ ["short_summary"] ++
        (if true then ["filter_bullets"] else []) ++ ["shorten_summary"] :=
  ⟨by decide,
    c4_length_gate lengthGateWorld exPState "bullet summary" "flattened prose"
      "compressed prose" true 200 200 rfl rfl rfl rfl (by decide) rfl rfl (by decide)⟩

/-- **C5.** For every stripped extracted target string whose lowercase form
is not in the gazetteer: the extractor's validation coerces it to
`"Unknown"`; the orchestrator then logs a `Failed` entry (for either
extraction phase) rather than silently substituting a value; and in the
tags block only a non-`"Unknown"` final target — necessarily a
gazetteer-validated string — is appended, so the rejected string never
enters `tags`. -/
theorem c5_gazetteer_gate (s : String) (hstrip : pyStrip s = s)
    (hout : target_names.contains (pyLower s) = false) :
    targetGate (some s) = "Unknown" ∧
    (∀ (w : World) (ps : PState),
      w.target1B ps.firstPage ps.fileName = .ok "Unknown" →
      ∃ ps', stageTarget1 w ps = .ok ps' ∧
        ps'.doc.target = some "Unknown" ∧
        ps'.doc.tags = ps.doc.tags ∧
        (ps'.doc.history.getLast?).map entrySketch =
          some ("Target Extraction", "Failed",
            some "Target extraction returned 'Unknown'.")) ∧
    (∀ (w : World) (ps : PState), ps.doc.target = some "Unknown" →
      w.target2B (String.intercalate " " (ps.doc.per_slide_summary.getD []))
        ps.doc.title = .ok "Unknown" →
      ∃ ps', stageTarget2 w ps = .ok ps' ∧
        ps'.doc.target = some "Unknown" ∧
        ps'.doc.tags = ps.doc.tags ∧
        (ps'.doc.history.getLast?).map entrySketch =
          some ("Target Extraction from Summary", "Failed",
            some "Target extraction from summary returned 'Unknown'.")) ∧
    (∀ (ps ps' : PState),
      (∀ t, ps.doc.target = some t →
        t = "Unknown" ∨ target_names.contains (pyLower t) = true) →
      stageTags ps = .ok ps' → s ∈ ps'.doc.tags → s ∈ ps.doc.tags) := by
  refine ⟨?_, ?_, ?_, ?_⟩
  · unfold targetGate
    simp only [Option.getD_some, hstrip, hout]
    simp
  · intro w ps h1
    unfold stageTarget1
    simp only [RUN_TARGET_EXTRACTION, if_true, h1]
    refine ⟨_, rfl, rfl, rfl, ?_⟩
    simp [entrySketch, Document.add_history]
  · intro w ps htu h2
    unfold stageTarget2
    simp only [RUN_TARGET_EXTRACTION, if_true, htu, if_pos rfl, h2]
    refine ⟨_, rfl, ?_, ?_, ?_⟩
    · simp [Document.add_history, htu]
    · simp [Document.add_history]
    · simp [entrySketch, Document.add_history]
  · intro ps ps' hgate h hmem
    unfold stageTags at h
    simp only [RUN_TARGET_EXTRACTION, if_true] at h
    cases htg : ps.doc.target with
    | none => simp only [htg] at h; cases h; exact hmem
    | some t =>
      simp only [htg] at h
      by_cases ht : t = "Unknown"
      · rw [if_pos ht] at h; cases h; exact hmem
      · rw [if_neg ht] at h
        cases h
        simp only [List.mem_append, List.mem_singleton] at hmem
        rcases hmem with hmem | hmem
        · exact hmem
        · rcases hgate t htg with h' | h'
          · exact absurd h' ht
          · subst hmem
            rw [hout] at h'
            cases h'


theorem stageAuthorHist (w : World) (ps ps' : PState)
    (h : stageAuthor w ps = .ok ps') :
    ∃ t, ps'.doc.history = ps.doc.history ++ t := by
  unfold stageAuthor at h
  simp only [RUN_AUTHOR_EXTRACTION, if_true] at h
  cases hx : w.authorB ps.firstPage ps.fileName with
  | ok v =>
    simp only [hx] at h
    cases h
    exact ⟨_, by simp only [Document.add_history, List.append_assoc]; rfl⟩
  | error e => simp only [hx] at h; cases h

theorem stageTopicHist (w : World) (ps ps' : PState)
    (h : stageTopic w ps = .ok ps') :
    ∃ t, ps'.doc.history = ps.doc.history ++ t := by
  unfold stageTopic at h
  simp only [RUN_TOPIC_EXTRACTION, if_true] at h
  cases hx : w.topicB ps.firstPage with
  | ok v =>
    simp only [hx] at h
    cases h
    exact ⟨_, by simp only [Document.add_history, List.append_assoc]; rfl⟩
  | error e => simp only [hx] at h; cases h

theorem stageSlidesHist (w : World) (ps ps' : PState)
    (h : stageSlides w ps = .ok ps') :
    ∃ t, ps'.doc.history = ps.doc.history ++ t := by
  unfold stageSlides at h
  simp only [RUN_SLIDE_EXTRACTION, if_true] at h
  cases hx : w.slidesB ps.loadedDocs with
  | ok v =>
    simp only [hx] at h
    cases h
    exact ⟨_, by simp only [Document.add_history, List.append_assoc]; rfl⟩
  | error e => simp only [hx] at h; cases h

theorem stageShortHist (w : World) (ps ps' : PState)
    (h : stageShort w ps = .ok ps') :
    ∃ t, ps'.doc.history = ps.doc.history ++ t := by
  unfold stageShort at h
  simp only [RUN_SHORT_SUMMARY, if_true] at h
  cases h0 : w.shortB (ps.doc.per_slide_summary.getD []) with
  | error e => simp only [h0] at h; cases h
  | ok s0 =>
    simp only [h0] at h
    cases hb : w.bulletsB s0 with
    | error e => simp only [hb] at h; cases h
    | ok b =>
      simp only [hb] at h
      cases b with
      | true =>
        simp only [if_true] at h
        cases h1 : w.filterB s0 with
        | error e => simp only [h1] at h; cases h
        | ok s1 =>
          simp only [h1] at h
          cases hn1 : w.wcB s1 with
          | error e => simp only [hn1] at h; cases h
          | ok n1 =>
            simp only [hn1] at h
            by_cases hgt : n1 > SHORT_SUMMARY_THRESHOLD
            · rw [if_pos hgt] at h
              cases h2 : w.shortenB s1 with
              | error e => simp only [h2] at h; cases h
              | ok s2 =>
                simp only [h2] at h
                cases hn2 : w.wcB s2 with
                | error e => simp only [hn2] at h; cases h
                | ok n2 =>
                  simp only [hn2] at h
                  by_cases hgt2 : n2 > SHORT_SUMMARY_THRESHOLD
                  · rw [if_pos hgt2] at h
                    cases h
                    exact ⟨_, by simp only [Document.add_history, List.append_assoc]; rfl⟩
                  · rw [if_neg hgt2] at h
                    cases h
                    exact ⟨_, by simp only [Document.add_history, List.append_assoc]; rfl⟩
            · rw [if_neg hgt] at h
              cases h
              exact ⟨_, by simp only [Document.add_history, List.append_assoc]; rfl⟩
      | false =>
        simp only [if_false, Bool.false_eq_true] at h
        cases hn1 : w.wcB s0 with
        | error e => simp only [hn1] at h; cases h
        | ok n1 =>
          simp only [hn1] at h
          by_cases hgt : n1 > SHORT_SUMMARY_THRESHOLD
          · rw [if_pos hgt] at h
            cases h2 : w.shortenB s0 with
            | error e => simp only [h2] at h; cases h
            | ok s2 =>
              simp only [h2] at h
              cases hn2 : w.wcB s2 with
              | error e => simp only [hn2] at h; cases h
              | ok n2 =>
                simp only [hn2] at h
                by_cases hgt2 : n2 > SHORT_SUMMARY_THRESHOLD
                · rw [if_pos hgt2] at h
                  cases h
                  exact ⟨_, by simp only [Document.add_history, List.append_assoc]; rfl⟩
                · rw [if_neg hgt2] at h
                  cases h
                  exact ⟨_, by simp only [Document.add_history, List.append_assoc]; rfl⟩
          · rw [if_neg hgt] at h
            cases h
            exact ⟨_, by simp only [Document.add_history, List.append_assoc]; rfl⟩


theorem stageTarget1Hist (w : World) (ps ps' : PState)
    (h : stageTarget1 w ps = .ok ps') :
    ∃ t, ps'.doc.history = ps.doc.history ++ t := by
  unfold stageTarget1 at h
  simp only [RUN_TARGET_EXTRACTION, if_true] at h
  cases hx : w.target1B ps.firstPage ps.fileName with
  | ok v =>
    simp only [hx] at h
    by_cases hv : v = "Unknown"
    · rw [if_pos hv] at h
      cases h
      exact ⟨_, by simp only [Document.add_history, List.append_assoc]; rfl⟩
    · rw [if_neg hv] at h
      cases h
      exact ⟨_, by simp only [Document.add_history, List.append_assoc]; rfl⟩
  | error e => simp only [hx] at h; cases h

theorem stageTarget2Hist (w : World) (ps ps' : PState)
    (h : stageTarget2 w ps = .ok ps') :
    ∃ t, ps'.doc.history = ps.doc.history ++ t := by
  unfold stageTarget2 at h
  simp only [RUN_TARGET_EXTRACTION, if_true] at h
  by_cases htg : ps.doc.target = some "Unknown"
  · rw [if_pos htg] at h
    cases hx : w.target2B (String.intercalate " " (ps.doc.per_slide_summary.getD []))
        ps.doc.title with
    | ok v =>
      simp only [hx] at h
      by_cases hv : v = "Unknown"
      · rw [if_pos hv] at h
        cases h
        exact ⟨_, by simp only [Document.add_history, List.append_assoc]; rfl⟩
      · rw [if_neg hv] at h
        cases h
        exact ⟨_, by simp only [Document.add_history, List.append_assoc]; rfl⟩
    | error e => simp only [hx] at h; cases h
  · rw [if_neg htg] at h
    cases h
    exact ⟨[], by simp⟩

theorem stageTagsHist (ps ps' : PState)
    (h : stageTags ps = .ok ps') :
    ∃ t, ps'.doc.history = ps.doc.history ++ t := by
  unfold stageTags at h
  simp only [RUN_TARGET_EXTRACTION, if_true] at h
  cases htg : ps.doc.target with
  | none => simp only [htg] at h; cases h; exact ⟨[], by simp⟩
  | some t =>
    simp only [htg] at h
    by_cases ht : t = "Unknown"
    · rw [if_pos ht] at h; cases h; exact ⟨[], by simp⟩
    · rw [if_neg ht] at h; cases h; exact ⟨[], by simp⟩

theorem stageDateHist (w : World) (ps ps' : PState)
    (h : stageDate w ps = .ok ps') :
    ∃ t, ps'.doc.history = ps.doc.history ++ t := by
  unfold stageDate at h
  simp only [RUN_DATE_EXTRACTION, if_true] at h
  cases hx : w.dateB (basename ps.doc.file_path) ps.firstPage with
  | ok v =>
    cases v with
    | some dt =>
      simp only [hx] at h
      cases h
      exact ⟨_, by simp only [Document.add_history, List.append_assoc]; rfl⟩
    | none =>
      simp only [hx] at h
      cases h
      exact ⟨_, by simp only [Document.add_history, List.append_assoc]; rfl⟩
  | error e => simp only [hx] at h; cases h

theorem runStageChainHist (w : World) (ps ps' : PState)
    (h : runStageChain w ps = .ok ps') :
    ∃ t, ps'.doc.history = ps.doc.history ++ t := by
  unfold runStageChain at h
  cases h1 : stageAuthor w ps with
  | error e => rw [h1, exceptBindErr, exceptBindErr, exceptBindErr, exceptBindErr,
      exceptBindErr, exceptBindErr, exceptBindErr] at h; cases h
  | ok ps1 =>
    rw [h1, exceptBindOk] at h
    cases h2 : stageTopic w ps1 with
    | error e => rw [h2, exceptBindErr, exceptBindErr, exceptBindErr, exceptBindErr,
        exceptBindErr, exceptBindErr] at h; cases h
    | ok ps2 =>
      rw [h2, exceptBindOk] at h
      cases h3 : stageSlides w ps2 with
      | error e => rw [h3, exceptBindErr, exceptBindErr, exceptBindErr,
          exceptBindErr, exceptBindErr] at h; cases h
      | ok ps3 =>
        rw [h3, exceptBindOk] at h
        cases h4 : stageShort w ps3 with
        | error e => rw [h4, exceptBindErr, exceptBindErr, exceptBindErr,
            exceptBindErr] at h; cases h
        | ok ps4 =>
          rw [h4, exceptBindOk] at h
          cases h5 : stageTarget1 w ps4 with
          | error e => rw [h5, exceptBindErr, exceptBindErr, exceptBindErr] at h
                       cases h
          | ok ps5 =>
            rw [h5, exceptBindOk] at h
            cases h6 : stageTarget2 w ps5 with
            | error e => rw [h6, exceptBindErr, exceptBindErr] at h; cases h
            | ok ps6 =>
              rw [h6, exceptBindOk] at h
              cases h7 : stageTags ps6 with
              | error e => rw [h7, exceptBindErr] at h; cases h
              | ok ps7 =>
                rw [h7, exceptBindOk] at h
                obtain ⟨t1, e1⟩ := stageAuthorHist w ps ps1 h1
                obtain ⟨t2, e2⟩ := stageTopicHist w ps1 ps2 h2
                obtain ⟨t3, e3⟩ := stageSlidesHist w ps2 ps3 h3
                obtain ⟨t4, e4⟩ := stageShortHist w ps3 ps4 h4
                obtain ⟨t5, e5⟩ := stageTarget1Hist w ps4 ps5 h5
                obtain ⟨t6, e6⟩ := stageTarget2Hist w ps5 ps6 h6
                obtain ⟨t7, e7⟩ := stageTagsHist ps6 ps7 h7
                obtain ⟨t8, e8⟩ := stageDateHist w ps7 ps' h
                refine ⟨t1 ++ t2 ++ t3 ++ t4 ++ t5 ++ t6 ++ t7 ++ t8, ?_⟩
                rw [e8, e7, e6, e5, e4, e3, e2, e1]
                simp [List.append_assoc]

theorem runStagesStore (w : World) (loc : String) (d0 : Document) (rid : Nat)
    (d : Document) (h : (runStages w loc d0 rid).store' = some d) :
    w.store = some d ∨ ∃ t, d.history = d0.history ++ t := by
  unfold runStages at h
  by_cases hf : w.fileIsFile
  · simp only [hf, Bool.not_true, Bool.false_eq_true, if_false] at h
    cases hft : w.fileType with
    | none => simp only [hft] at h; exact Or.inl h
    | some ft =>
      simp only [hft] at h
      by_cases hpdfT : strContains ft "PDF"
      · simp only [hpdfT, Bool.not_true, Bool.false_eq_true, if_false] at h
        cases hpd : w.pdfDoc with
        | none => simp only [hpd] at h; exact Or.inl h
        | some pdf =>
          simp only [hpd] at h
          by_cases hfp : pdf.first_page_content.isEmpty
          · simp only [hfp, if_true] at h
            exact Or.inl h
          · simp only [hfp, Bool.false_eq_true, if_false] at h
            cases hc : runStageChain w
                { doc := { d0 with run_id := some rid }, rid := rid,
                  firstPage := pdf.first_page_content,
                  loadedDocs := pdf.loaded_docs,
                  fileName := basename loc, invoked := [] } with
            | error hl => simp only [hc] at h; exact Or.inl h
            | ok ps' =>
              simp only [hc] at h
              by_cases hsf : w.saveFails
              · simp only [hsf, if_true] at h
                exact Or.inl h
              · simp only [hsf, Bool.false_eq_true, if_false] at h
                cases h
                obtain ⟨t, ht⟩ := runStageChainHist w _ ps' hc
                exact Or.inr ⟨t, ht⟩
      · simp only [hpdfT, Bool.not_false, if_true] at h
        exact Or.inl h
  · simp only [hf, Bool.not_false, if_true] at h
    exact Or.inl h

/-- **C6.** History is append-only: `add_history` is the only mutator of
`history` and it appends exactly one entry; and whenever a run replaces the
stored record for a path, the new record's history is the previously
stored record's history followed by a (possibly empty) list of new entries
— so across any number of runs `len(history)` is non-decreasing and no
stored entry ever disappears. -/
theorem c6_history_append_only :
    (∀ (d : Document) (rid : Nat) (step status : String)
       (details : Option String) (now : Nat),
      (d.add_history rid step status details now).history = d.history ++
        [{ run_id := rid, step := step, timestamp := now, status := status,
           details := details }]) ∧
    (∀ (w : World) (loc ext : String) (force : Bool) (d : Document),
      (gen_summary w loc ext force).store' = some d →
      ∃ t, d.history = (match w.store with
        | some ex => ex.history
        | none => []) ++ t) := by
  constructor
  · intro d rid step status details now
    rfl
  · intro w loc ext force d h
    cases hst : w.store with
    | none => exact ⟨d.history, by simp⟩
    | some ex =>
      unfold gen_summary at h
      rw [hst] at h
      simp only [] at h
      split at h
      · have hd : ex = d := Option.some.inj h
        exact ⟨[], by simp [← hd]⟩
      · rcases runStagesStore w loc _ _ d h with hcase | ⟨t, ht⟩
        · rw [hst] at hcase
          have hd : ex = d := Option.some.inj hcase
          exact ⟨[], by simp [← hd]⟩
        · exact ⟨t, by simpa using ht⟩


/-- **C5 witness.** The gazetteer-gate theorem applied at the concrete
string `"Banana"`, which is stripped and whose lowercase form is not in
`target_names`: the gate coerces it to `"Unknown"`. -/
theorem c5_witness :
    pyStrip "Banana" = "Banana" ∧
    target_names.contains (pyLower "Banana") = false ∧
    targetGate (some "Banana") = "Unknown" :=
  ⟨rfl, by decide, (c5_gazetteer_gate "Banana" rfl (by decide)).1⟩

/-- **C6 witness.** The append-only theorem applied at `fullRunWorld`: the
record persisted by the hash-mismatch rerun carries the stored record's
history as a prefix. -/
theorem c6_witness :
    ∃ t, (gen_summary fullRunWorld "/d/f.pdf" "/x/f.pdf" false).finalDoc.history =
      (match fullRunWorld.store with
        | some ex => ex.history
        | none => []) ++ t :=
  c6_history_append_only.2 fullRunWorld "/d/f.pdf" "/x/f.pdf" false
    (gen_summary fullRunWorld "/d/f.pdf" "/x/f.pdf" false).finalDoc rfl

/-- Every branch of a non-short-circuited run leaves `hookRuns` empty: the
post-hook block is disabled by the hard-coded `RUN_POST_HOOKS = False`. -/
theorem runStagesHookRuns (w : World) (loc : String) (d0 : Document) (rid : Nat) :
    (runStages w loc d0 rid).hookRuns = [] := by
  unfold runStages
  by_cases hf : w.fileIsFile
  · simp only [hf, Bool.not_true, Bool.false_eq_true, if_false]
    cases hft : w.fileType with
    | none => rfl
    | some ft =>
      by_cases hpdfT : strContains ft "PDF"
      · simp only [hpdfT, Bool.not_true, Bool.false_eq_true, if_false]
        cases hpd : w.pdfDoc with
        | none => rfl
        | some pdf =>
          by_cases hfp : pdf.first_page_content.isEmpty
          · simp only [hfp, if_true]
          · simp only [hfp, Bool.false_eq_true, if_false]
            cases hc : runStageChain w
                { doc := { d0 with run_id := some rid }, rid := rid,
                  firstPage := pdf.first_page_content,
                  loadedDocs := pdf.loaded_docs,
                  fileName := basename loc, invoked := [] } with
            | error hl => rfl
            | ok ps' => simp [RUN_POST_HOOKS]
      · simp only [hpdfT, Bool.not_false, if_true]
  · simp only [hf, Bool.not_false, if_true]

/-- Every `gen_summary` call either short-circuits on an unchanged hash
(returning the stored record and dispatching hooks when configured) or
reduces to `runStages`. -/
theorem genSummaryCases (w : World) (loc ext : String) (force : Bool) :
    (∃ ex, w.store = some ex ∧ ex.doc_hash = some w.fileHash ∧ force = false ∧
      gen_summary w loc ext force =
        { ret := .ok (some { ex with ext_path := some ext }),
          store' := some ex, invoked := [],
          hookRuns := match w.hooksEnv with
            | some _ => [{ ex with ext_path := some ext }]
            | none => [],
          finalDoc := { ex with ext_path := some ext } }) ∨
    (∃ d0 rid, gen_summary w loc ext force = runStages w loc d0 rid) := by
  unfold gen_summary
  cases hst : w.store with
  | none => exact Or.inr ⟨_, _, rfl⟩
  | some ex =>
    simp only []
    split
    · next hcond =>
      exact Or.inl ⟨ex, rfl, by simpa using hcond.1, hcond.2, rfl⟩
    · exact Or.inr ⟨_, _, rfl⟩

/-- **C8 amended.** Hook dispatch happens only on the short-circuit path:
when the stored hash matches the current bytes, `force_run` is false and
`HOOKS_POST` is set, the dispatcher is invoked with the existing stored
record; any run that dispatched hooks invoked no backend and left the store
untouched (so a full run — which executes backends and persists — never
dispatches hooks, the post-hook block being disabled by the hard-coded
`RUN_POST_HOOKS = False`); and the dispatcher itself attempts every
registered hook, each inside its own exception guard, so one hook's failure
blocks neither the remaining hooks nor the run's result. -/
theorem c8_amended :
    (∀ (w : World) (loc ext : String) (ex : Document) (p : String),
      w.store = some ex → ex.doc_hash = some w.fileHash → w.hooksEnv = some p →
      (gen_summary w loc ext false).hookRuns = [{ ex with ext_path := some ext }]) ∧
    (∀ (w : World) (loc ext : String) (force : Bool),
      (gen_summary w loc ext force).hookRuns ≠ [] →
      (gen_summary w loc ext force).invoked = [] ∧
      (gen_summary w loc ext force).store' = w.store) ∧
    (∀ (hooks : List (Document → Except String Bool)) (d : Document),
      (execute_hooks hooks d).length = hooks.length) := by
  refine ⟨?_, ?_, ?_⟩
  · intro w loc ext ex p hs hh hp
    unfold gen_summary
    rw [hs]
    simp [hh, hp]
  · intro w loc ext force h
    rcases genSummaryCases w loc ext force with
      ⟨ex, hs, hh, hf, heq⟩ | ⟨d0, rid, heq⟩
    · rw [heq]
      exact ⟨rfl, hs.symm⟩
    · rw [heq] at h
      exact absurd (runStagesHookRuns w loc d0 rid) h
  · intro hooks d
    unfold execute_hooks
    simp

/-- **C8 amended witness.** The short-circuit conjunct applied at
`shortCircuitWorld`, whose `HOOKS_POST` is `"post"`. -/
theorem c8_witness :
    shortCircuitWorld.hooksEnv = some "post" ∧
    (gen_summary shortCircuitWorld "/d/f.pdf" "/x/f.pdf" false).hookRuns =
      [{ exDoc with ext_path := some "/x/f.pdf" }] :=
  ⟨rfl, c8_amended.1 shortCircuitWorld "/d/f.pdf" "/x/f.pdf" exDoc "post" rfl rfl rfl⟩

end DocMLx
